import Mathlib

/-!
Verification development for the ForwardBaseSpawner core
(`forwardbasespawner/forward.py`, `api_events.py`, `api_setup_tunnel.py`).

The Python source is shallowly embedded: pure helpers become Lean
functions, stateful methods become explicit state-passing functions
returning an effect trace, fallible code returns `Except PyErr`, and
nondeterministic inputs (subprocess results, the current time, hook
outcomes) are passed as explicit oracle parameters.
-/

set_option autoImplicit false

namespace FwdSpawner

/-- Python exception kinds raised by the embedded code paths. -/
inductive PyErr where
  | keyError
  | attributeError
  | valueError
  | nameError
  | timeoutExpired
  | exception
  deriving DecidableEq, Repr

/-- An event dict as produced by the handlers: the keys read by the code.
`htmlMessage = none` models a dict without the "html_message" key. -/
structure Evt where
  failed : Bool := false
  ready : Bool := false
  progress : Nat := 0
  message : String := ""
  htmlMessage : Option String := none
  deriving DecidableEq, Repr

/-- A possibly-empty Python event dict: `none` models the empty dict `{}`,
which is falsy; `some e` a non-empty event dict. -/
abbrev PyDict := Option Evt

/-! ## The timestamp regex of `_get_event_time` (forward.py:731-738)

Python pattern (a raw string):
`([0-9]+(_[0-9]+)+).*[0-9]{2}:[0-9]{2}:[0-9]{2}(\\.[0-9]{1,3})?`

In a raw string `\\.` is the two regex tokens `\\` (a literal backslash)
and `.` (any character but newline).  `re.search` finds the leftmost
position admitting a match; quantifiers are greedy with the usual
backtracking priority.  Matchers below return the list of possible
rest-of-input suffixes in backtracking priority order (preferred first);
the head of the list at the leftmost viable position is the match that
`match.group()` reports. -/

def isDigitCh (c : Char) : Bool := '0' ≤ c && c ≤ '9'

/-- `[0-9]*`, greedy: longest consumption first. -/
def digitsStar : List Char → List (List Char)
  | [] => [[]]
  | c :: cs => if isDigitCh c then digitsStar cs ++ [c :: cs] else [c :: cs]

/-- `[0-9]+`, greedy. -/
def digitsPlus : List Char → List (List Char)
  | [] => []
  | c :: cs => if isDigitCh c then digitsStar cs else []

/-- `_[0-9]+`. -/
def underscoreDigits : List Char → List (List Char)
  | '_' :: cs => digitsPlus cs
  | _ => []

/-- `(_[0-9]+)+`, greedy: more repetitions preferred.  Each repetition
consumes at least two characters, so fuel `s.length + 1` is never
exhausted on any reachable input. -/
def uPlusAux : Nat → List Char → List (List Char)
  | 0, _ => []
  | fuel + 1, s => (underscoreDigits s).flatMap fun r => uPlusAux fuel r ++ [r]

def uPlus (s : List Char) : List (List Char) :=
  uPlusAux (s.length + 1) s

/-- `.*` (any character except a newline), greedy. -/
def dotStar : List Char → List (List Char)
  | [] => [[]]
  | c :: cs => if c ≠ '\n' then dotStar cs ++ [c :: cs] else [c :: cs]

/-- `[0-9]{2}:[0-9]{2}:[0-9]{2}` (deterministic, fixed width). -/
def matchTime : List Char → Option (List Char)
  | a :: b :: c1 :: c :: d :: c2 :: e :: f :: rest =>
    if isDigitCh a && isDigitCh b && c1 = ':' && isDigitCh c && isDigitCh d
        && c2 = ':' && isDigitCh e && isDigitCh f then
      some rest
    else none
  | _ => none

/-- `[0-9]{1,3}`, greedy (3, then 2, then 1 digits). -/
def digits13 : List Char → List (List Char)
  | a :: b :: c :: rest =>
    (if isDigitCh a && isDigitCh b && isDigitCh c then [rest] else []) ++
      (if isDigitCh a && isDigitCh b then [c :: rest] else []) ++
      (if isDigitCh a then [b :: c :: rest] else [])
  | [a, b] =>
    (if isDigitCh a && isDigitCh b then [[]] else []) ++
      (if isDigitCh a then [[b]] else [])
  | [a] => if isDigitCh a then [[]] else []
  | [] => []

/-- `(\\.[0-9]{1,3})?`: an optional literal backslash, any non-newline
character, then one to three digits; present preferred over absent. -/
def matchFrac (s : List Char) : List (List Char) :=
  (match s with
   | '\\' :: c :: rest => if c ≠ '\n' then digits13 rest else []
   | _ => []) ++ [s]

/-- All ways the whole pattern matches a prefix of `s`, in backtracking
priority order; each element is the rest after the consumed prefix. -/
def matchPatternAt (s : List Char) : List (List Char) :=
  (digitsPlus s).flatMap fun r1 =>
    (uPlus r1).flatMap fun r2 =>
      (dotStar r2).flatMap fun r3 =>
        match matchTime r3 with
        | none => []
        | some r4 => matchFrac r4

/-- The prefix of `s` that was consumed to leave `rest`. -/
def takeConsumed (s rest : List Char) : List Char :=
  s.take (s.length - rest.length)

/-- `re.search(pattern, message)` followed by `match.group()`:
leftmost match position, backtracking-preferred alternative there.
Returns `none` when the pattern is absent (Python: `re.search` returns
`None` and `match.group()` raises `AttributeError`). -/
def searchTimestamp : List Char → Option (List Char)
  | [] => none
  | c :: cs =>
    match (matchPatternAt (c :: cs)).head? with
    | some rest => some (takeConsumed (c :: cs) rest)
    | none => searchTimestamp cs

/-- `_get_event_time` (forward.py:731-738): reads `event["html_message"]`
(`KeyError` when absent), then `re.search(...).group()`
(`AttributeError` when the pattern is absent). -/
def getEventTime (e : Evt) : Except PyErr (List Char) :=
  match e.htmlMessage with
  | none => .error .keyError
  | some msg =>
    match searchTimestamp msg.data with
    | none => .error .attributeError
    | some g => .ok g

/-! ## `datetime.strptime(stime, "%Y_%m_%d %H:%M:%S")`

CPython builds a regex from the format: `%Y ↦ \d\d\d\d`,
`%m ↦ 1[0-2]|0[1-9]|[1-9]`, `%d ↦ 3[01]|[12]\d|0[1-9]|[1-9]`,
`%H ↦ 2[0-3]|[0-1]\d|\d`, `%M ↦ [0-5]\d|\d`, `%S ↦ 6[0-1]|[0-5]\d|\d`,
requires the whole string to be consumed, then validates the fields by
constructing a `datetime` (which bounds the day by the month length and
the seconds by 59).  Each alternative list below is in regex priority
order; parsing backtracks like the regex engine. -/

def digitVal (c : Char) : Nat := c.toNat - '0'.toNat

/-- `\d\d\d\d` (exactly four digits). -/
def altsY : List Char → List (Nat × List Char)
  | a :: b :: c :: d :: rest =>
    if isDigitCh a && isDigitCh b && isDigitCh c && isDigitCh d then
      [(digitVal a * 1000 + digitVal b * 100 + digitVal c * 10 + digitVal d, rest)]
    else []
  | _ => []

def isDigRange (lo hi : Char) (c : Char) : Bool := lo ≤ c && c ≤ hi

/-- `1[0-2]|0[1-9]|[1-9]`. -/
def altsM : List Char → List (Nat × List Char)
  | a :: b :: rest =>
    (if a = '1' && isDigRange '0' '2' b then [(10 + digitVal b, rest)] else []) ++
      (if a = '0' && isDigRange '1' '9' b then [(digitVal b, rest)] else []) ++
      (if isDigRange '1' '9' a then [(digitVal a, b :: rest)] else [])
  | [a] => if isDigRange '1' '9' a then [(digitVal a, [])] else []
  | [] => []

/-- `3[01]|[12]\d|0[1-9]|[1-9]`. -/
def altsD : List Char → List (Nat × List Char)
  | a :: b :: rest =>
    (if a = '3' && isDigRange '0' '1' b then [(30 + digitVal b, rest)] else []) ++
      (if isDigRange '1' '2' a && isDigitCh b then [(digitVal a * 10 + digitVal b, rest)] else []) ++
      (if a = '0' && isDigRange '1' '9' b then [(digitVal b, rest)] else []) ++
      (if isDigRange '1' '9' a then [(digitVal a, b :: rest)] else [])
  | [a] => if isDigRange '1' '9' a then [(digitVal a, [])] else []
  | [] => []

/-- `2[0-3]|[0-1]\d|\d`. -/
def altsH : List Char → List (Nat × List Char)
  | a :: b :: rest =>
    (if a = '2' && isDigRange '0' '3' b then [(20 + digitVal b, rest)] else []) ++
      (if isDigRange '0' '1' a && isDigitCh b then [(digitVal a * 10 + digitVal b, rest)] else []) ++
      (if isDigitCh a then [(digitVal a, b :: rest)] else [])
  | [a] => if isDigitCh a then [(digitVal a, [])] else []
  | [] => []

/-- `[0-5]\d|\d`. -/
def altsMin : List Char → List (Nat × List Char)
  | a :: b :: rest =>
    (if isDigRange '0' '5' a && isDigitCh b then [(digitVal a * 10 + digitVal b, rest)] else []) ++
      (if isDigitCh a then [(digitVal a, b :: rest)] else [])
  | [a] => if isDigitCh a then [(digitVal a, [])] else []
  | [] => []

/-- `6[0-1]|[0-5]\d|\d`. -/
def altsS : List Char → List (Nat × List Char)
  | a :: b :: rest =>
    (if a = '6' && isDigRange '0' '1' b then [(60 + digitVal b, rest)] else []) ++
      (if isDigRange '0' '5' a && isDigitCh b then [(digitVal a * 10 + digitVal b, rest)] else []) ++
      (if isDigitCh a then [(digitVal a, b :: rest)] else [])
  | [a] => if isDigitCh a then [(digitVal a, [])] else []
  | [] => []

/-- A parsed (unvalidated) `%Y_%m_%d %H:%M:%S` tuple. -/
structure DateTuple where
  y : Nat
  m : Nat
  d : Nat
  hh : Nat
  mi : Nat
  ss : Nat
  deriving DecidableEq, Repr

/-- Match a single literal character. -/
def litCh (c : Char) : List Char → List (List Char)
  | c' :: rest => if c' = c then [rest] else []
  | [] => []

/-- All full-string parses of the format, in regex priority order. -/
def strptimeParses (s : List Char) : List DateTuple :=
  (altsY s).flatMap fun (y, r1) =>
    (litCh '_' r1).flatMap fun r2 =>
      (altsM r2).flatMap fun (m, r3) =>
        (litCh '_' r3).flatMap fun r4 =>
          (altsD r4).flatMap fun (d, r5) =>
            (litCh ' ' r5).flatMap fun r6 =>
              (altsH r6).flatMap fun (hh, r7) =>
                (litCh ':' r7).flatMap fun r8 =>
                  (altsMin r8).flatMap fun (mi, r9) =>
                    (litCh ':' r9).flatMap fun r10 =>
                      (altsS r10).flatMap fun (ss, r11) =>
                        if r11 = [] then [⟨y, m, d, hh, mi, ss⟩] else []

def isLeapYear (y : Nat) : Bool :=
  y % 4 = 0 && (y % 100 ≠ 0 || y % 400 = 0)

def daysInMonth (y m : Nat) : Nat :=
  if m = 2 then (if isLeapYear y then 29 else 28)
  else if m = 4 || m = 6 || m = 9 || m = 11 then 30
  else 31

/-- The `datetime(y, m, d, hh, mi, ss)` constructor validation: year in
`1..9999`, day bounded by the month length, seconds at most 59 (the
strptime regex admits leap seconds `60`/`61`, the constructor rejects
them).  The regex already bounds `m ≤ 12`, `d ≤ 31`, `hh ≤ 23`, `mi ≤ 59`. -/
def validDatetime (t : DateTuple) : Bool :=
  1 ≤ t.y && 1 ≤ t.d && t.d ≤ daysInMonth t.y t.m && t.ss ≤ 59

/-- `datetime.strptime(s, "%Y_%m_%d %H:%M:%S")`: `none` models the
`ValueError` raised when the string does not match the format or the
field values do not form a valid datetime. -/
def strptimeFull (s : List Char) : Option DateTuple :=
  match (strptimeParses s).head? with
  | none => none
  | some t => if validDatetime t then some t else none

/-! ## Calendar arithmetic for `now - dtime` -/

/-- Days since 0000-03-01 of a proleptic-Gregorian civil date (the
standard days-from-civil algorithm, valid for `y ≥ 1`). -/
def daysFromCivil (y m d : Nat) : Nat :=
  let y' := if m ≤ 2 then y - 1 else y
  let era := y' / 400
  let yoe := y' - era * 400
  let mp := if m > 2 then m - 3 else m + 9
  let doy := (153 * mp + 2) / 5 + d - 1
  let doe := yoe * 365 + yoe / 4 - yoe / 100 + doy
  era * 146097 + doe

/-- A datetime as a second count on the same scale as the `now`
parameter of `getState`. -/
def toSecs (t : DateTuple) : Int :=
  (daysFromCivil t.y t.m t.d : Int) * 86400 + t.hh * 3600 + t.mi * 60 + t.ss

/-- `(now - dtime).days` of a Python `timedelta`: floor division of the
total seconds by 86400 (negative deltas get negative day counts). -/
def deltaDays (now dtime : Int) : Int :=
  (now - dtime).fdiv 86400

/-! ## Python dicts as insertion-ordered association lists -/

/-- `d.get(k, None)`. -/
def slookup {α : Type} : List (String × α) → String → Option α
  | [], _ => none
  | (k', v) :: rest, k => if k' = k then some v else slookup rest k

/-- `d[k] = v`: replaces in place when the key exists (keeping its
position), appends at the end otherwise. -/
def assocSet {α : Type} : List (String × α) → String → α → List (String × α)
  | [], k, v => [(k, v)]
  | (k', v') :: rest, k, v =>
    if k' = k then (k, v) :: rest else (k', v') :: assocSet rest k v

/-- `del d[k]` (the key is known present at call sites; on an absent key
Python raises `KeyError`, handled at the call site). -/
def assocDel {α : Type} : List (String × α) → String → List (String × α)
  | [], _ => []
  | (k', v') :: rest, k =>
    if k' = k then rest else (k', v') :: assocDel rest k

/-- `d.update(other)`, key by key in `other`'s order. -/
def dictUpdate (d upd : List (String × String)) : List (String × String) :=
  upd.foldl (fun acc kv => assocSet acc kv.1 kv.2) d

/-! ## `get_state` (forward.py:578-601) -/

/-- The spawner attributes read by `get_state`. -/
structure PruneState where
  portForwardInfo : List (String × String)
  port : Nat
  events : List (String × List PyDict)
  latestEvents : List PyDict

/-- The returned state dict (`events` key present only when the events
dict was truthy). -/
structure StateOut where
  portForwardInfo : List (String × String)
  port : Nat
  events : Option (List (String × List PyDict))
  deriving DecidableEq, Repr

/-- One iteration of the pruning loop body for a key of the snapshot:
`value = self.events.get(key, None)`; a non-empty group whose first
entry is a truthy dict has its first event's timestamp extracted
(`_get_event_time`, then `strptime`); the whole group is deleted when
`(now - dtime).days` is non-zero; empty groups (or groups headed by an
empty dict) are deleted outright.  A missing key would make the `del`
raise `KeyError`. -/
def processKey (now : Int) (d : List (String × List PyDict)) (key : String) :
    Except PyErr (List (String × List PyDict)) :=
  match slookup d key with
  | none => .error .keyError
  | some v =>
    match v.head? with
    | some (some e) =>
      match getEventTime e with
      | .error err => .error err
      | .ok stime =>
        match strptimeFull stime with
        | none => .error .valueError
        | some dt =>
          if deltaDays now (toSecs dt) ≠ 0 then .ok (assocDel d key) else .ok d
    | _ => .ok (assocDel d key)

/-- The `for key in events_keys` loop. -/
def pruneLoop (now : Int) (d : List (String × List PyDict)) :
    List String → Except PyErr (List (String × List PyDict))
  | [] => .ok d
  | k :: ks =>
    match processKey now d k with
    | .error e => .error e
    | .ok d' => pruneLoop now d' ks

/-- `get_state`: stores `port_forward_info` and `port`; when the events
dict is truthy, sets `events["latest"] = latest_events`, snapshots the
keys, prunes group by group (any exception propagates), and stores the
pruned dict under `"events"`.  `now` abstracts the `datetime.now()`
calls of the loop. -/
def getState (now : Int) (st : PruneState) : Except PyErr StateOut :=
  if st.events = [] then
    .ok ⟨st.portForwardInfo, st.port, none⟩
  else
    match pruneLoop now (assocSet st.events "latest" st.latestEvents)
        ((assocSet st.events "latest" st.latestEvents).map Prod.fst) with
    | .error e => .error e
    | .ok d => .ok ⟨st.portForwardInfo, st.port, some d⟩

/-- The timestamp (as seconds) governing a group's fate, when its first
entry parses: used to state what pruning keeps. -/
def groupTime (v : List PyDict) : Option Int :=
  match v.head? with
  | some (some e) =>
    match getEventTime e with
    | .error _ => none
    | .ok stime =>
      match strptimeFull stime with
      | none => none
      | some dt => some (toSecs dt)
  | _ => none

/-- A group survives pruning iff its head parses to a timestamp less
than a day old (in `timedelta.days` terms). -/
def keepGroup (now : Int) (v : List PyDict) : Bool :=
  match groupTime v with
  | some t => deltaDays now t == 0
  | none => false

/-- A group that the loop can process without raising: either deleted
outright (empty, or headed by an empty dict) or with a parsable head. -/
def goodGroup (v : List PyDict) : Prop :=
  (v.head? = none ∨ v.head? = some none) ∨ groupTime v ≠ none

instance (v : List PyDict) : Decidable (goodGroup v) := by
  unfold goodGroup; infer_instance

theorem processKey_cons_ne (now : Int) (k k' : String) (v : List PyDict)
    (d : List (String × List PyDict)) (h : k ≠ k') :
    processKey now ((k, v) :: d) k' =
      (processKey now d k').map (fun d2 => (k, v) :: d2) := by
  cases hsl : slookup d k' with
  | none => simp [processKey, slookup, h, hsl, Except.map]
  | some g =>
    cases hg : g.head? with
    | none => simp [processKey, slookup, assocDel, h, hsl, hg, Except.map]
    | some o =>
      cases o with
      | none => simp [processKey, slookup, assocDel, h, hsl, hg, Except.map]
      | some e =>
        cases he : getEventTime e with
        | error err => simp [processKey, slookup, h, hsl, hg, he, Except.map]
        | ok stime =>
          cases hs : strptimeFull stime with
          | none => simp [processKey, slookup, h, hsl, hg, he, hs, Except.map]
          | some dt =>
            by_cases hdd : deltaDays now (toSecs dt) = 0 <;>
              simp [processKey, slookup, assocDel, h, hsl, hg, he, hs, hdd, Except.map]

theorem pruneLoop_cons_skip (now : Int) (k : String) (v : List PyDict)
    (d : List (String × List PyDict)) (ks : List String) (h : k ∉ ks) :
    pruneLoop now ((k, v) :: d) ks =
      (pruneLoop now d ks).map (fun d2 => (k, v) :: d2) := by
  induction ks generalizing d with
  | nil => rfl
  | cons k' ks ih =>
    have hk : k ≠ k' := fun he => h (he ▸ List.mem_cons_self k' ks)
    have hrest : k ∉ ks := fun hm => h (List.mem_cons_of_mem _ hm)
    cases hp : processKey now d k' with
    | error e => simp [pruneLoop, processKey_cons_ne now k k' v d hk, hp, Except.map]
    | ok d' =>
      simpa [pruneLoop, processKey_cons_ne now k k' v d hk, hp, Except.map]
        using ih d' hrest

/-- Every group on the key list either raises or is processed as
deletion/retention of the whole group, matching `keepGroup`. -/
theorem pruneLoop_keys_filter (now : Int) (d : List (String × List PyDict))
    (hnd : (d.map Prod.fst).Nodup) (hgood : ∀ kv ∈ d, goodGroup kv.2) :
    pruneLoop now d (d.map Prod.fst) =
      .ok (d.filter fun kv => keepGroup now kv.2) := by
  induction d with
  | nil => rfl
  | cons kv rest ih =>
    obtain ⟨k, v⟩ := kv
    have hnotin : k ∉ rest.map Prod.fst := (List.nodup_cons.mp hnd).1
    have hnd' : (rest.map Prod.fst).Nodup := (List.nodup_cons.mp hnd).2
    have hgood' : ∀ kv ∈ rest, goodGroup kv.2 :=
      fun kv hm => hgood kv (List.mem_cons_of_mem _ hm)
    have hgv : goodGroup v := hgood (k, v) (List.mem_cons_self _ _)
    cases hg : v.head? with
    | none =>
      have hkeep : keepGroup now v = false := by simp [keepGroup, groupTime, hg]
      simpa [pruneLoop, processKey, slookup, assocDel, hg, hkeep] using ih hnd' hgood'
    | some o =>
      cases o with
      | none =>
        have hkeep : keepGroup now v = false := by simp [keepGroup, groupTime, hg]
        simpa [pruneLoop, processKey, slookup, assocDel, hg, hkeep] using ih hnd' hgood'
      | some e =>
        cases he : getEventTime e with
        | error err =>
          exact absurd hgv (by simp [goodGroup, groupTime, hg, he])
        | ok stime =>
          cases hs : strptimeFull stime with
          | none =>
            exact absurd hgv (by simp [goodGroup, groupTime, hg, he, hs])
          | some dt =>
            by_cases hdd : deltaDays now (toSecs dt) = 0
            · have hkeep : keepGroup now v = true := by
                simp [keepGroup, groupTime, hg, he, hs, hdd]
              rw [List.map_cons, pruneLoop]
              simp only [processKey, slookup, assocDel, hg, he, hs, hdd,
                if_pos rfl, ite_true, ne_eq, not_true_eq_false, ite_false]
              rw [pruneLoop_cons_skip now k v rest (rest.map Prod.fst) hnotin,
                ih hnd' hgood']
              simp [Except.map, hkeep]
            · have hkeep : keepGroup now v = false := by
                simp [keepGroup, groupTime, hg, he, hs, hdd]
              simpa [pruneLoop, processKey, slookup, assocDel, hg, he, hs, hdd, hkeep]
                using ih hnd' hgood'

/-- Processing the head key either raises, deletes the head group, or
keeps the dict unchanged. -/
theorem processKey_head_cases (now : Int) (k : String) (v : List PyDict)
    (rest : List (String × List PyDict)) :
    (∃ err, processKey now ((k, v) :: rest) k = .error err) ∨
      processKey now ((k, v) :: rest) k = .ok rest ∨
      processKey now ((k, v) :: rest) k = .ok ((k, v) :: rest) := by
  cases hg : v.head? with
  | none => exact .inr (.inl (by simp [processKey, slookup, assocDel, hg]))
  | some o =>
    cases o with
    | none => exact .inr (.inl (by simp [processKey, slookup, assocDel, hg]))
    | some e =>
      cases he : getEventTime e with
      | error err => exact .inl ⟨err, by simp [processKey, slookup, hg, he]⟩
      | ok stime =>
        cases hs : strptimeFull stime with
        | none => exact .inl ⟨.valueError, by simp [processKey, slookup, hg, he, hs]⟩
        | some dt =>
          by_cases hdd : deltaDays now (toSecs dt) = 0
          · exact .inr (.inr (by simp [processKey, slookup, hg, he, hs, hdd]))
          · exact .inr (.inl (by simp [processKey, slookup, assocDel, hg, he, hs, hdd]))

/-- A group whose first event's message lacks the timestamp pattern
forces the pruning loop to raise. -/
theorem pruneLoop_error_of_bad (now : Int) (d : List (String × List PyDict))
    (hnd : (d.map Prod.fst).Nodup)
    (hbad : ∃ kv ∈ d, ∃ e m, kv.2.head? = some (some e) ∧
      e.htmlMessage = some m ∧ searchTimestamp m.data = none) :
    ∃ err, pruneLoop now d (d.map Prod.fst) = .error err := by
  induction d with
  | nil => exact absurd hbad (by simp)
  | cons kv rest ih =>
    obtain ⟨k, v⟩ := kv
    have hnotin : k ∉ rest.map Prod.fst := (List.nodup_cons.mp hnd).1
    have hnd' : (rest.map Prod.fst).Nodup := (List.nodup_cons.mp hnd).2
    obtain ⟨kv', hmem, e, m, hhead, hmsg, hsearch⟩ := hbad
    rcases List.mem_cons.mp hmem with hkv | hmem'
    · subst hkv
      refine ⟨.attributeError, ?_⟩
      have hget : getEventTime e = .error .attributeError := by
        simp [getEventTime, hmsg, hsearch]
      simp [pruneLoop, processKey, slookup, hhead, hget]
    · have hbad' : ∃ kv ∈ rest, ∃ e m, kv.2.head? = some (some e) ∧
          e.htmlMessage = some m ∧ searchTimestamp m.data = none :=
        ⟨kv', hmem', e, m, hhead, hmsg, hsearch⟩
      rcases processKey_head_cases now k v rest with ⟨err, hp⟩ | hp | hp
      · exact ⟨err, by simp [pruneLoop, hp]⟩
      · obtain ⟨err, herr⟩ := ih hnd' hbad'
        exact ⟨err, by simp [pruneLoop, hp, herr]⟩
      · obtain ⟨err, herr⟩ := ih hnd' hbad'
        refine ⟨err, ?_⟩
        rw [List.map_cons, pruneLoop]
        simp only [hp]
        rw [pruneLoop_cons_skip now k v rest (rest.map Prod.fst) hnotin, herr]
        rfl

/-! ## C2 and C6 -/

/-- A fixed `now`: 2024-01-03 10:00:00. -/
def nowC : Int := toSecs ⟨2024, 1, 3, 10, 0, 0⟩

/-- An event whose detail message carries a timestamp two days before `nowC`. -/
def staleEvt : Evt :=
  { failed := false, ready := false, progress := 10, message := "",
    htmlMessage := some "<details><summary>2024_01_01 10:00:00: spawn requested</summary>outpost contacted</details>" }

/-- An event whose detail message carries a timestamp one hour before `nowC`. -/
def youngEvt : Evt :=
  { failed := false, ready := true, progress := 90, message := "",
    htmlMessage := some "<details><summary>2024_01_03 09:00:00: lab is starting</summary>almost there</details>" }

/-- An event whose detail message contains no timestamp pattern. -/
def plainEvt : Evt :=
  { failed := false, ready := false, progress := 50, message := "",
    htmlMessage := some "JupyterLab was stopped without any timestamp" }

def st2 : PruneState :=
  { portForwardInfo := [], port := 0,
    events := [("0", [some plainEvt])], latestEvents := [] }

/-- C2 counterexample: a group whose first event's message lacks the
timestamp pattern makes `get_state` raise (`re.search` returns `None`
and `.group()` raises `AttributeError`); the state is not returned, so
the claim that the group is skipped and the state returned normally is
false at this input. -/
theorem c2_counterexample :
    searchTimestamp "JupyterLab was stopped without any timestamp".data = none ∧
    getState nowC st2 = .error .attributeError :=
  ⟨rfl, rfl⟩

/-- C2 amended: during state saving with a truthy events dict, any group
whose first event's message lacks the timestamp pattern makes
`get_state` raise (the `AttributeError` from `.group()`, or an earlier
group's exception); pruning is never skipped gracefully. -/
theorem c2_getState_raises (now : Int) (st : PruneState)
    (hne : st.events ≠ [])
    (hnd : ((assocSet st.events "latest" st.latestEvents).map Prod.fst).Nodup)
    (hbad : ∃ kv ∈ assocSet st.events "latest" st.latestEvents, ∃ e m,
      kv.2.head? = some (some e) ∧ e.htmlMessage = some m ∧
      searchTimestamp m.data = none) :
    ∃ err, getState now st = .error err := by
  obtain ⟨err, herr⟩ := pruneLoop_error_of_bad now _ hnd hbad
  exact ⟨err, by simp [getState, hne, herr]⟩

theorem c2_getState_raises_witness : ∃ err, getState nowC st2 = .error err :=
  c2_getState_raises nowC st2 (by decide) (by decide)
    ⟨("0", [some plainEvt]), by decide, plainEvt,
      "JupyterLab was stopped without any timestamp", by decide, rfl, rfl⟩

def st6 : PruneState :=
  { portForwardInfo := [("service", "http://remote-svc:8080")],
    port := 30123,
    events := [("0", [some staleEvt, some youngEvt])],
    latestEvents := [] }

/-- C6 counterexample: `youngEvt` is one hour old (its `timedelta.days`
against `nowC` is zero), sits in a group whose first event is two days
old, and pruning removes the entire group — so an event younger than
24 hours is dropped, refuting the claim at this input. -/
theorem c6_counterexample :
    groupTime [some youngEvt] = some (toSecs ⟨2024, 1, 3, 9, 0, 0⟩) ∧
    deltaDays nowC (toSecs ⟨2024, 1, 3, 9, 0, 0⟩) = 0 ∧
    slookup st6.events "0" = some [some staleEvt, some youngEvt] ∧
    getState nowC st6 = .ok ⟨st6.portForwardInfo, st6.port, some []⟩ :=
  ⟨rfl, rfl, rfl, rfl⟩

/-- C6 amended: pruning operates on whole groups, keyed solely by the
first event of each group: after `events["latest"] = latest_events`, a
group survives iff its first entry is a truthy dict whose embedded
timestamp is less than one `timedelta` day before (and not after) `now`;
surviving groups are kept verbatim (stale non-head events included) and
all other groups are removed entirely (young non-head events included). -/
theorem c6_prune_by_group (now : Int) (st : PruneState)
    (hne : st.events ≠ [])
    (hnd : ((assocSet st.events "latest" st.latestEvents).map Prod.fst).Nodup)
    (hgood : ∀ kv ∈ assocSet st.events "latest" st.latestEvents, goodGroup kv.2) :
    getState now st = .ok ⟨st.portForwardInfo, st.port,
      some ((assocSet st.events "latest" st.latestEvents).filter
        fun kv => keepGroup now kv.2)⟩ := by
  simp [getState, hne, pruneLoop_keys_filter now _ hnd hgood]

def st6w : PruneState :=
  { portForwardInfo := [], port := 8080,
    events := [("0", [some staleEvt])],
    latestEvents := [some youngEvt] }

theorem c6_prune_by_group_witness :
    getState nowC st6w = .ok ⟨[], 8080, some [("latest", [some youngEvt])]⟩ :=
  c6_prune_by_group nowC st6w (by decide) (by decide) (by decide)

end FwdSpawner

namespace FwdSpawner

/-! ## `stop` (forward.py:1492-1520)

`stop(now=False, cancel=False, event=None)` returns immediately when the
`already_stopped` guard is set; otherwise it sets the guard, optionally
cancels the in-flight start, always awaits the remote `_stop` call, and
in a `finally` block appends the supplied event.  `maybe_future` wraps a
non-awaitable value into a resolved future and returns it unchanged, so
`await maybe_future(event)` leaves a function-valued `event` as the bare
function object.  If `_stop` raised, the exception propagates after the
`finally` append, skipping `cancel()` and the tunnel teardown. -/

/-- The `event` argument of `stop`: a dict, or a function of the current
timestamp (the shape produced by `api_events.py`'s `stop_event`).  A
callable is modelled with the `now` string it would read if invoked. -/
inductive EventVal where
  | dict (e : Evt)
  | func (f : String → Evt)

/-- Python `callable(event)`. -/
def isCallable : EventVal → Bool
  | .dict _ => false
  | .func _ => true

/-- `await maybe_future(v)` for a non-awaitable `v` (a dict or a bare
function object): the value itself, unchanged and uncalled. -/
def maybeFutureVal (v : EventVal) : EventVal := v

structure StopState where
  alreadyStopped : Bool
  latestEvents : List EventVal
  portForwardInfoNonempty : Bool

inductive StopEffect where
  | cancelStartFuture
  | remoteStop
  | appendEvent (v : EventVal)
  | cancelUser
  | removeForward

structure StopResult where
  trace : List StopEffect
  state : StopState
  raised : Option PyErr

/-- `stop(now, cancel, event)` with `stopRaises` the outcome of the
remote `_stop` call. -/
def runStop (cancel : Bool) (event : Option EventVal) (stopRaises : Bool)
    (s : StopState) : StopResult :=
  if s.alreadyStopped then
    ⟨[], s, none⟩
  else
    let s1 : StopState := { s with alreadyStopped := true }
    let t1 : List StopEffect := if cancel then [.cancelStartFuture] else []
    let t2 := t1 ++ [.remoteStop]
    let (t3, s3) : List StopEffect × StopState :=
      match event with
      | none => (t2, s1)
      | some ev =>
        let ev' := if isCallable ev then maybeFutureVal ev else ev
        (t2 ++ [.appendEvent ev'], { s1 with latestEvents := s1.latestEvents ++ [ev'] })
    if stopRaises then
      ⟨t3, s3, some .exception⟩
    else
      let t4 := t3 ++ (if cancel then [.cancelUser] else [])
      let t5 := t4 ++ (if s3.portForwardInfoNonempty then [.removeForward] else [])
      ⟨t5, s3, none⟩

/-- A sequence of `stop` calls (each with its own arguments and remote
outcome), accumulating the combined effect trace. -/
def runStopSeq : List (Bool × Option EventVal × Bool) → StopState →
    List StopEffect × StopState
  | [], s => ([], s)
  | (c, ev, r) :: rest, s =>
    let res := runStop c ev r s
    let (t, s') := runStopSeq rest res.state
    (res.trace ++ t, s')

end FwdSpawner

namespace FwdSpawner

theorem runStop_state_stopped (c : Bool) (ev : Option EventVal) (r : Bool)
    (s : StopState) : (runStop c ev r s).state.alreadyStopped = true := by
  by_cases h : s.alreadyStopped
  · simp [runStop, h]
  · cases ev <;> cases r <;> simp [runStop, h]

theorem runStopSeq_stopped (l : List (Bool × Option EventVal × Bool))
    (s : StopState) (h : s.alreadyStopped = true) : runStopSeq l s = ([], s) := by
  induction l with
  | nil => rfl
  | cons x l ih => simp [runStopSeq, runStop, h, ih]

/-- C1: once the `already_stopped` guard is set, any further `stop` call
returns immediately with no effects and no state change; consequently a
sequence of `N ≥ 1` `stop` calls (arbitrary arguments and remote-stop
outcomes each time) performs exactly the effects of its first call. -/
theorem c1_stop_idempotent :
    (∀ (c : Bool) (ev : Option EventVal) (r : Bool) (s : StopState),
      s.alreadyStopped = true → runStop c ev r s = ⟨[], s, none⟩) ∧
    (∀ (x : Bool × Option EventVal × Bool)
        (l : List (Bool × Option EventVal × Bool)) (s : StopState),
      runStopSeq (x :: l) s =
        ((runStop x.1 x.2.1 x.2.2 s).trace, (runStop x.1 x.2.1 x.2.2 s).state)) := by
  constructor
  · intro c ev r s h
    simp [runStop, h]
  · intro x l s
    obtain ⟨c, ev, r⟩ := x
    simp only [runStopSeq]
    rw [runStopSeq_stopped l _ (runStop_state_stopped c ev r s)]
    simp

def sStopped : StopState := ⟨true, [], false⟩

theorem c1_stop_idempotent_witness :
    runStop false none false sStopped = ⟨[], sStopped, none⟩ :=
  c1_stop_idempotent.1 false none false sStopped rfl

/-! ## C3: function-valued terminal events in `stop` -/

/-- The sentinel cancel message of api_events.py:11-13. -/
def userCancelMessage : String :=
  "Start cancelled by user.</summary>You clicked the cancel button.</details>"

/-- The function-valued `stop_event` built in api_events.py:82-90: called
with the then-current timestamp it would produce this dict. -/
def apiStopEvent (now : String) : Evt :=
  { failed := true, ready := false, progress := 100, message := "",
    htmlMessage := some ("<details><summary>" ++ now ++ ": " ++ userCancelMessage) }

def sFresh : StopState := ⟨false, [], false⟩

/-- C3: `stop` appends the supplied event after the remote stop call
whether or not `_stop` raised (the claim's first half holds), but a
function-valued event is appended as the bare function object:
`await maybe_future(event)` returns a non-awaitable value unchanged and
the function is never called, so the appended entry is not a dict for
any timestamp — contradicting the code's own comment ("Add correct
timestamp to event, at the moment it will be used") and the claim. -/
theorem c3_function_event_not_resolved :
    (runStop true (some (.func apiStopEvent)) false sFresh).trace
        = [.cancelStartFuture, .remoteStop, .appendEvent (.func apiStopEvent),
           .cancelUser] ∧
    (runStop true (some (.func apiStopEvent)) true sFresh).trace
        = [.cancelStartFuture, .remoteStop, .appendEvent (.func apiStopEvent)] ∧
    (runStop true (some (.func apiStopEvent)) false sFresh).state.latestEvents
        = [.func apiStopEvent] ∧
    (runStop true (some (.func apiStopEvent)) true sFresh).state.latestEvents
        = [.func apiStopEvent] ∧
    (∀ e : Evt, EventVal.func apiStopEvent ≠ EventVal.dict e) :=
  ⟨rfl, rfl, rfl, rfl, fun _ h => nomatch h⟩

end FwdSpawner

namespace FwdSpawner

/-! ## The events callback `SpawnEventsAPIHandler.post` (api_events.py:37-154)

Spawner attributes read by the handler.  `pending` is the jupyterhub
`Spawner.pending` property: `"spawn"` when `_spawn_pending`, else
`"stop"` when `_stop_pending`, else `"check"` when `_check_pending`,
else `None`; only the comparison with `"stop"` matters here. -/
structure EvFlags where
  spawnPending : Bool
  stopPending : Bool
  checkPending : Bool
  alreadyStopped : Bool

/-- `spawner.pending == "stop"`. -/
def pendingIsStop (f : EvFlags) : Bool :=
  !f.spawnPending && f.stopPending

/-- Outcome of `run_filter_events`: `filterSpec = none` models an unset
`filter_events` hook (event passed through); `some fn` a hook whose
application may raise (`error`) or return a possibly-falsy dict.  A hook
returning Python `None` is replaced by the empty dict, which the `ok
none` case also covers. -/
def runFilterEvents (filterSpec : Option (PyDict → Except Unit PyDict))
    (event : PyDict) : PyDict :=
  match filterSpec with
  | none => event
  | some fn =>
    match fn event with
    | .error _ => none
    | .ok ev => ev

/-- A `spawner.stop(cancel=True, event=...)` call issued by the handler. -/
inductive EvStopCall where
  | withFunc
  | withDict (e : Evt)
  deriving Repr

structure EvOutcome where
  status : Nat
  appended : List Evt
  stops : List EvStopCall
  deriving Repr

/-- The timestamp prepend of api_events.py:128-137: if the message (the
`html_message` key, falling back to `message`) starts with the summary
tag the timestamp is spliced in after it; otherwise, when `html_message`
is absent or empty, it is set to `message`. -/
def stampEvent (now : String) (e : Evt) : Evt :=
  let msg0 := e.htmlMessage.getD e.message
  if msg0.startsWith "<details><summary>" then
    let stamped := "<details><summary>" ++ now ++ ": " ++ (msg0.drop 18)
    { e with htmlMessage := some stamped }
  else if e.htmlMessage.getD "" = "" then
    { e with htmlMessage := some e.message }
  else e

/-- The filter-then-append tail of the handler (api_events.py:113-154):
`if not event or spawner._stop_pending` rejects with 400, otherwise the
timestamped event is appended and 204 returned. -/
def evFilterBranch (f : EvFlags) (event : PyDict)
    (filterSpec : Option (PyDict → Except Unit PyDict)) (now : String) :
    EvOutcome :=
  match runFilterEvents filterSpec event with
  | none => ⟨400, [], []⟩
  | some e2 =>
    if f.stopPending then
      ⟨400, [], []⟩
    else
      ⟨204, [stampEvent now e2], []⟩

/-- `SpawnEventsAPIHandler.post` after the 404 user/server checks:
`parse` is the JSON body (`error` models an unparseable body, `ok none`
an empty body or empty dict). -/
def postEvents (f : EvFlags) (parse : Except Unit PyDict)
    (filterSpec : Option (PyDict → Except Unit PyDict)) (now : String) :
    EvOutcome :=
  match parse with
  | .error _ => ⟨400, [], []⟩
  | .ok event =>
    if pendingIsStop f || f.alreadyStopped then
      ⟨204, [], []⟩
    else
      match event with
      | some e =>
        if e.failed then
          if (e.htmlMessage.getD "").endsWith userCancelMessage then
            ⟨204, [], [.withFunc]⟩
          else
            ⟨204, [], [.withDict e]⟩
        else
          evFilterBranch f (some e) filterSpec now
      | none => evFilterBranch f none filterSpec now

end FwdSpawner

namespace FwdSpawner

def evC4 : Evt :=
  { failed := false, ready := false, progress := 30,
    message := "working", htmlMessage := some "working hard" }

def fGuarded : EvFlags :=
  { spawnPending := false, stopPending := false, checkPending := false,
    alreadyStopped := true }

/-- C4 counterexample: with the stop guard set (`already_stopped`), a
non-failure event is rejected by the early guard of the handler with
status 204 and no append — not with the claimed 400 "bad request". -/
theorem c4_counterexample :
    evC4.failed = false ∧
    postEvents fGuarded (.ok (some evC4)) none "2024_01_03 10:00:00.000" =
      ⟨204, [], []⟩ :=
  ⟨rfl, rfl⟩

/-- C4 amended: for non-failure events, if `pending == "stop"` or the
`already_stopped` guard is set the handler responds 204 without
appending; otherwise, if filtering reduces the event to empty (including
an empty input event and a raising filter) or `_stop_pending` is set, it
responds 400 without appending; otherwise the timestamped event is
appended and the response is 204. -/
theorem c4_report_event (f : EvFlags) (event : PyDict)
    (fs : Option (PyDict → Except Unit PyDict)) (now : String)
    (hnf : ∀ e, event = some e → e.failed = false) :
    ((pendingIsStop f || f.alreadyStopped) = true →
      postEvents f (.ok event) fs now = ⟨204, [], []⟩) ∧
    ((pendingIsStop f || f.alreadyStopped) = false →
      runFilterEvents fs event = none →
      postEvents f (.ok event) fs now = ⟨400, [], []⟩) ∧
    ((pendingIsStop f || f.alreadyStopped) = false → f.stopPending = true →
      ∀ e2, runFilterEvents fs event = some e2 →
      postEvents f (.ok event) fs now = ⟨400, [], []⟩) ∧
    ((pendingIsStop f || f.alreadyStopped) = false → f.stopPending = false →
      ∀ e2, runFilterEvents fs event = some e2 →
      postEvents f (.ok event) fs now = ⟨204, [stampEvent now e2], []⟩) := by
  refine ⟨?_, ?_, ?_, ?_⟩
  · intro hg
    cases event with
    | none => simp [postEvents, hg]
    | some e => simp [postEvents, hg]
  · intro hg hfil
    cases event with
    | none => simp [postEvents, evFilterBranch, hg, hfil]
    | some e => simp [postEvents, evFilterBranch, hg, hnf e rfl, hfil]
  · intro hg hsp e2 hfil
    cases event with
    | none => simp [postEvents, evFilterBranch, hg, hsp, hfil]
    | some e => simp [postEvents, evFilterBranch, hg, hsp, hnf e rfl, hfil]
  · intro hg hsp e2 hfil
    cases event with
    | none => simp [postEvents, evFilterBranch, hg, hsp, hfil]
    | some e => simp [postEvents, evFilterBranch, hg, hsp, hnf e rfl, hfil]

theorem c4_report_event_witness :
    postEvents ⟨false, false, false, false⟩ (.ok (some evC4)) none
        "2024_01_03 10:00:00.000" =
      ⟨204, [stampEvent "2024_01_03 10:00:00.000" evC4], []⟩ :=
  (c4_report_event ⟨false, false, false, false⟩ (some evC4) none
      "2024_01_03 10:00:00.000"
      (fun e he => by injection he with h; subst h; rfl)).2.2.2 rfl rfl evC4 rfl

/-! ## `run_post_stop_hook` (forward.py:514-524) -/

structure HookState where
  alreadyPostStopHooked : Bool

/-- `run_post_stop_hook`: returns immediately when the guard is set;
otherwise sets the guard and runs the hook when one is configured
(hook exceptions are swallowed).  The returned boolean reports whether
the hook body ran. -/
def runPostStopHook (hasHook : Bool) (s : HookState) : HookState × Bool :=
  if s.alreadyPostStopHooked then
    (s, false)
  else
    ({ alreadyPostStopHooked := true }, hasHook)

/-- A sequence of `run_post_stop_hook` invocations (from any mix of the
stop / poll-at-startup / cancel paths), counting hook-body runs. -/
def runPostStopHookN : Nat → Bool → HookState → HookState × Nat
  | 0, _, s => (s, 0)
  | n + 1, hasHook, s =>
    let (s1, ran) := runPostStopHook hasHook s
    let (s2, cnt) := runPostStopHookN n hasHook s1
    (s2, (if ran then 1 else 0) + cnt)

theorem runPostStopHookN_hooked (n : Nat) (hasHook : Bool) (s : HookState)
    (h : s.alreadyPostStopHooked = true) :
    runPostStopHookN n hasHook s = (s, 0) := by
  induction n with
  | zero => rfl
  | succ n ih => simp [runPostStopHookN, runPostStopHook, h, ih]

/-- C9: once the guard is set every later invocation returns immediately
without running the hook, and any number of invocations in a session
lifetime (no `clear_state` in between) runs the hook body at most once —
exactly once from a fresh state when a hook is configured and there is
at least one invocation. -/
theorem c9_post_stop_hook_once :
    (∀ (hasHook : Bool) (s : HookState), s.alreadyPostStopHooked = true →
      runPostStopHook hasHook s = (s, false)) ∧
    (∀ (n : Nat) (hasHook : Bool) (s : HookState),
      (runPostStopHookN n hasHook s).2 ≤ 1) ∧
    (∀ (n : Nat) (hasHook : Bool), 1 ≤ n →
      (runPostStopHookN n hasHook ⟨false⟩).2 = if hasHook then 1 else 0) := by
  refine ⟨fun hasHook s h => by simp [runPostStopHook, h], ?_, ?_⟩
  · intro n hasHook s
    cases n with
    | zero => simp [runPostStopHookN]
    | succ n =>
      by_cases h : s.alreadyPostStopHooked
      · simp [runPostStopHookN, runPostStopHook, h,
          runPostStopHookN_hooked n hasHook s h]
      · simp only [runPostStopHookN, runPostStopHook, h]
        simp [runPostStopHookN_hooked n hasHook ⟨true⟩ rfl]
        cases hasHook <;> simp
  · intro n hasHook h
    cases n with
    | zero => exact absurd h (by simp)
    | succ n =>
      simp [runPostStopHookN, runPostStopHook,
        runPostStopHookN_hooked n hasHook ⟨true⟩ rfl]

theorem c9_post_stop_hook_once_witness :
    runPostStopHook true ⟨true⟩ = (⟨true⟩, false) :=
  c9_post_stop_hook_once.1 true ⟨true⟩ rfl

end FwdSpawner

namespace FwdSpawner

/-! ## `ssh_default_forward` (forward.py:1033-1095)

A subprocess invocation returns `(returncode, stdout, stderr)` or
raises `TimeoutExpired`; the oracle maps the invocation index to the
outcome.  `get_forward_cmd` resolves the base ssh command (`baseCmd`),
the username and the node; their values do not influence the control
flow and are carried opaquely. -/

inductive SubprocResult where
  | ret (code : Int) (out err : String)
  | timeout
  deriving DecidableEq, Repr

inductive CmdKind where
  | check
  | connect
  | forward
  | cancel
  deriving DecidableEq, Repr

structure TraceEntry where
  kind : CmdKind
  cmd : List String
  res : SubprocResult
  deriving DecidableEq, Repr

/-- `s.removeprefix(p)`: drops `p` when it is a prefix, else returns `s`. -/
def stripPfx : List Char → List Char → Option (List Char)
  | [], s => some s
  | _ :: _, [] => none
  | p :: ps, c :: cs => if p = c then stripPfx ps cs else none

def removePfx (p s : List Char) : List Char := (stripPfx p s).getD s

/-- `s.split(":")`. -/
def splitOnColon : List Char → List (List Char)
  | [] => [[]]
  | c :: cs =>
    let rest := splitOnColon cs
    if c = ':' then [] :: rest
    else
      match rest with
      | [] => [[c]]
      | r :: rs => (c :: r) :: rs

/-- `split_service_address` (forward.py:1009-1014): strips the scheme,
splits on `:` and destructures into exactly two parts (`ValueError`
otherwise). -/
def splitServiceAddress (service : String) : Except PyErr (String × String) :=
  let sap := removePfx "http://".data (removePfx "https://".data service.data)
  match splitOnColon sap with
  | [a, p] => .ok (String.mk a, String.mk p)
  | _ => .error .valueError

structure ConnOut where
  trace : List TraceEntry
  nextIdx : Nat
  err : Option PyErr
  deriving Repr

/-- The multiplex-connection phase of `ssh_default_forward` (and of its
remote sibling): `check`; when it exits non-zero, `connect` with a 1s
timeout whose `TimeoutExpired` is expected and answered by a second
`check`; any remaining non-zero code raises. -/
def connPhase (user node : String) (baseCmd : List String)
    (oracle : Nat → SubprocResult) : ConnOut :=
  let dest := user ++ "@" ++ node
  let checkCmd := baseCmd ++ ["-O", "check", dest]
  let connectCmd := baseCmd ++ [dest]
  match oracle 0 with
  | .timeout => ⟨[⟨.check, checkCmd, .timeout⟩], 1, some .timeoutExpired⟩
  | .ret c1 o1 e1 =>
    if c1 ≠ 0 then
      match oracle 1 with
      | .timeout =>
        match oracle 2 with
        | .timeout =>
          ⟨[⟨.check, checkCmd, .ret c1 o1 e1⟩, ⟨.connect, connectCmd, .timeout⟩,
            ⟨.check, checkCmd, .timeout⟩], 3, some .timeoutExpired⟩
        | .ret c2 o2 e2 =>
          ⟨[⟨.check, checkCmd, .ret c1 o1 e1⟩, ⟨.connect, connectCmd, .timeout⟩,
            ⟨.check, checkCmd, .ret c2 o2 e2⟩], 3,
            if c2 ≠ 0 then some .exception else none⟩
      | .ret c2 o2 e2 =>
        ⟨[⟨.check, checkCmd, .ret c1 o1 e1⟩, ⟨.connect, connectCmd, .ret c2 o2 e2⟩],
          2, if c2 ≠ 0 then some .exception else none⟩
    else ⟨[⟨.check, checkCmd, .ret c1 o1 e1⟩], 1, none⟩

structure FwdOut where
  trace : List TraceEntry
  err : Option PyErr
  deriving Repr

/-- The forward-request phase: `forward`; on a non-zero exit, one
`cancel` for the same binding and exactly one `forward` retry, raising
iff the retry also exits non-zero (a timeout raises on any of them). -/
def forwardPhase (user node : String) (baseCmd : List String)
    (addr sport : String) (port : Nat) (oracle : Nat → SubprocResult)
    (i : Nat) : FwdOut :=
  let dest := user ++ "@" ++ node
  let bind := "-L0.0.0.0:" ++ toString port ++ ":" ++ addr ++ ":" ++ sport
  let fwdCmd := baseCmd ++ ["-O", "forward", bind, dest]
  let cnclCmd := baseCmd ++ ["-O", "cancel", bind, dest]
  match oracle i with
  | .timeout => ⟨[⟨.forward, fwdCmd, .timeout⟩], some .timeoutExpired⟩
  | .ret c3 o3 e3 =>
    if c3 ≠ 0 then
      match oracle (i + 1) with
      | .timeout =>
        ⟨[⟨.forward, fwdCmd, .ret c3 o3 e3⟩, ⟨.cancel, cnclCmd, .timeout⟩],
          some .timeoutExpired⟩
      | .ret c4 o4 e4 =>
        match oracle (i + 2) with
        | .timeout =>
          ⟨[⟨.forward, fwdCmd, .ret c3 o3 e3⟩, ⟨.cancel, cnclCmd, .ret c4 o4 e4⟩,
            ⟨.forward, fwdCmd, .timeout⟩], some .timeoutExpired⟩
        | .ret c5 o5 e5 =>
          ⟨[⟨.forward, fwdCmd, .ret c3 o3 e3⟩, ⟨.cancel, cnclCmd, .ret c4 o4 e4⟩,
            ⟨.forward, fwdCmd, .ret c5 o5 e5⟩],
            if c5 ≠ 0 then some .exception else none⟩
    else ⟨[⟨.forward, fwdCmd, .ret c3 o3 e3⟩], none⟩

/-- `ssh_default_forward`: connection phase, then
`split_service_address(port_forward_info.get("service"))` (an absent
key gives `None`, whose `removeprefix` raises `AttributeError`), then
the forward phase. -/
def sshDefaultForward (user node : String) (baseCmd : List String)
    (service : Option String) (port : Nat) (oracle : Nat → SubprocResult) :
    FwdOut :=
  let conn := connPhase user node baseCmd oracle
  match conn.err with
  | some e => ⟨conn.trace, some e⟩
  | none =>
    match service with
    | none => ⟨conn.trace, some .attributeError⟩
    | some svc =>
      match splitServiceAddress svc with
      | .error e => ⟨conn.trace, some e⟩
      | .ok (addr, sport) =>
        let f := forwardPhase user node baseCmd addr sport port oracle conn.nextIdx
        ⟨conn.trace ++ f.trace, f.err⟩

end FwdSpawner

namespace FwdSpawner

theorem connPhase_kinds (user node : String) (baseCmd : List String)
    (oracle : Nat → SubprocResult) :
    ∀ en ∈ (connPhase user node baseCmd oracle).trace,
      en.kind = .check ∨ en.kind = .connect := by
  unfold connPhase
  cases h0 : oracle 0 with
  | timeout =>
    intro en hen
    simp at hen
    simp [hen]
  | ret c1 o1 e1 =>
    by_cases h1 : c1 = 0
    · intro en hen
      simp [h1] at hen
      simp [hen]
    · cases h2 : oracle 1 with
      | timeout =>
        cases h3 : oracle 2 with
        | timeout =>
          intro en hen
          simp [h1] at hen
          rcases hen with h | h | h <;> simp [h]
        | ret c2 o2 e2 =>
          intro en hen
          simp [h1] at hen
          rcases hen with h | h | h <;> simp [h]
      | ret c2 o2 e2 =>
        intro en hen
        simp [h1] at hen
        rcases hen with h | h <;> simp [h]

/-- C7: whenever the connection phase succeeds and the first `forward`
request exits non-zero, `ssh_default_forward` issues exactly one
`cancel` for the same `0.0.0.0:port:address:port` binding followed by
exactly one further `forward`, and raises iff that single retry also
exits non-zero. -/
theorem c7_forward_retry (user node : String) (baseCmd : List String)
    (svc addr sport : String) (port : Nat) (oracle : Nat → SubprocResult)
    (t1 : List TraceEntry) (i : Nat)
    (hconn : connPhase user node baseCmd oracle = ⟨t1, i, none⟩)
    (hsplit : splitServiceAddress svc = .ok (addr, sport))
    (c3 c4 c5 : Int) (o3 e3 o4 e4 o5 e5 : String)
    (h3 : oracle i = .ret c3 o3 e3) (hc3 : c3 ≠ 0)
    (h4 : oracle (i + 1) = .ret c4 o4 e4)
    (h5 : oracle (i + 2) = .ret c5 o5 e5) :
    (sshDefaultForward user node baseCmd (some svc) port oracle).trace =
      t1 ++
        [⟨.forward, baseCmd ++ ["-O", "forward",
            "-L0.0.0.0:" ++ toString port ++ ":" ++ addr ++ ":" ++ sport,
            user ++ "@" ++ node], .ret c3 o3 e3⟩,
         ⟨.cancel, baseCmd ++ ["-O", "cancel",
            "-L0.0.0.0:" ++ toString port ++ ":" ++ addr ++ ":" ++ sport,
            user ++ "@" ++ node], .ret c4 o4 e4⟩,
         ⟨.forward, baseCmd ++ ["-O", "forward",
            "-L0.0.0.0:" ++ toString port ++ ":" ++ addr ++ ":" ++ sport,
            user ++ "@" ++ node], .ret c5 o5 e5⟩] ∧
    ((sshDefaultForward user node baseCmd (some svc) port oracle).err = none ↔
      c5 = 0) ∧
    ((sshDefaultForward user node baseCmd (some svc) port oracle).trace.filter
        (fun en => en.kind == CmdKind.cancel)).length = 1 ∧
    ((sshDefaultForward user node baseCmd (some svc) port oracle).trace.filter
        (fun en => en.kind == CmdKind.forward)).length = 2 := by
  have hrun : sshDefaultForward user node baseCmd (some svc) port oracle =
      ⟨t1 ++ (forwardPhase user node baseCmd addr sport port oracle i).trace,
        (forwardPhase user node baseCmd addr sport port oracle i).err⟩ := by
    simp [sshDefaultForward, hconn, hsplit]
  have hfwd : forwardPhase user node baseCmd addr sport port oracle i =
      ⟨[⟨.forward, baseCmd ++ ["-O", "forward",
          "-L0.0.0.0:" ++ toString port ++ ":" ++ addr ++ ":" ++ sport,
          user ++ "@" ++ node], .ret c3 o3 e3⟩,
        ⟨.cancel, baseCmd ++ ["-O", "cancel",
          "-L0.0.0.0:" ++ toString port ++ ":" ++ addr ++ ":" ++ sport,
          user ++ "@" ++ node], .ret c4 o4 e4⟩,
        ⟨.forward, baseCmd ++ ["-O", "forward",
          "-L0.0.0.0:" ++ toString port ++ ":" ++ addr ++ ":" ++ sport,
          user ++ "@" ++ node], .ret c5 o5 e5⟩],
        if c5 = 0 then none else some .exception⟩ := by
    unfold forwardPhase
    rw [h3, h4, h5]
    by_cases h5c : c5 = 0 <;> simp [hc3, h5c]
  have ht1 : ∀ en ∈ t1, en.kind = CmdKind.check ∨ en.kind = CmdKind.connect := by
    intro en hen
    exact connPhase_kinds user node baseCmd oracle en (by rw [hconn]; exact hen)
  have ht1c : t1.filter (fun en => en.kind == CmdKind.cancel) = [] := by
    refine List.filter_eq_nil_iff.mpr fun en hen => ?_
    rcases ht1 en hen with h | h <;> simp [h]
  have ht1f : t1.filter (fun en => en.kind == CmdKind.forward) = [] := by
    refine List.filter_eq_nil_iff.mpr fun en hen => ?_
    rcases ht1 en hen with h | h <;> simp [h]
  refine ⟨?_, ?_, ?_, ?_⟩
  · rw [hrun, hfwd]
  · rw [hrun, hfwd]
    by_cases h : c5 = 0 <;> simp [h]
  · rw [hrun, hfwd]
    simp [List.filter_append, ht1c]
  · rw [hrun, hfwd]
    simp [List.filter_append, ht1f]

def oracleC7 : Nat → SubprocResult
  | 0 => .ret 0 "" ""
  | 1 => .ret 1 "" "bind failed"
  | 2 => .ret 0 "" ""
  | _ => .ret 0 "" ""

theorem c7_forward_retry_witness :
    (sshDefaultForward "u" "node" ["ssh"] (some "http://svc:8080") 80
        oracleC7).trace =
      [⟨.check, ["ssh", "-O", "check", "u@node"], .ret 0 "" ""⟩] ++
        [⟨.forward, ["ssh", "-O", "forward", "-L0.0.0.0:80:svc:8080", "u@node"],
            .ret 1 "" "bind failed"⟩,
         ⟨.cancel, ["ssh", "-O", "cancel", "-L0.0.0.0:80:svc:8080", "u@node"],
            .ret 0 "" ""⟩,
         ⟨.forward, ["ssh", "-O", "forward", "-L0.0.0.0:80:svc:8080", "u@node"],
            .ret 0 "" ""⟩] ∧
    ((sshDefaultForward "u" "node" ["ssh"] (some "http://svc:8080") 80
        oracleC7).err = none ↔ (0 : Int) = 0) ∧
    ((sshDefaultForward "u" "node" ["ssh"] (some "http://svc:8080") 80
        oracleC7).trace.filter (fun en => en.kind == CmdKind.cancel)).length = 1 ∧
    ((sshDefaultForward "u" "node" ["ssh"] (some "http://svc:8080") 80
        oracleC7).trace.filter (fun en => en.kind == CmdKind.forward)).length = 2 :=
  c7_forward_retry "u" "node" ["ssh"] "http://svc:8080" "svc" "8080" 80 oracleC7
    [⟨.check, ["ssh", "-O", "check", "u@node"], .ret 0 "" ""⟩] 1 rfl rfl
    1 0 0 "" "bind failed" "" "" "" "" rfl (by decide) rfl rfl

end FwdSpawner

namespace FwdSpawner

/-! ## `start` / `call_subclass_start` (forward.py:1363-1456) and
`ssh_default_forward_remote` (forward.py:1107-1143) -/

inductive StartEff where
  | remoteSubproc (en : TraceEntry)
  | customRemoteForward
  | callStart
  | appendFailEvent
  | runSshForward
  deriving DecidableEq, Repr

inductive StartErr where
  | tunnelError419
  | startFailed
  | splitError (e : PyErr)
  deriving DecidableEq, Repr

/-- `ssh_default_forward_remote`: the multiplex-connection phase (as in
the local variant, against the remote node), after which the code
references the never-assigned local variable `start_cmd` (forward.py:1138)
and so raises `NameError`; the default remote forward can never
succeed. -/
def sshDefaultForwardRemote (user node : String) (baseCmd : List String)
    (oracle : Nat → SubprocResult) : List StartEff × Option PyErr :=
  let conn := connPhase user node baseCmd oracle
  match conn.err with
  | some e => (conn.trace.map .remoteSubproc, some e)
  | none => (conn.trace.map .remoteSubproc, some .nameError)

/-- The inputs of one `call_subclass_start` execution: resolved hook
values and the outcomes of the awaited collaborator calls.
`customRemote = none` models an unset `ssh_custom_forward_remote` hook
(the default remote forward runs); `startResult` is the outcome of
`self._start()` (`ok` carries the `resp` service string, empty when the
address is not yet known); `runForwardResult` the outcome of
`run_ssh_forward` (svc name and port).  The `int(port)` update and the
failure-path wait loop carry no effects relevant to the claims and are
represented by the returned URL and the `appendFailEvent` effect. -/
structure StartCfg where
  port : Nat
  randomPort : Nat
  createRemoteForward : Bool
  customRemote : Option (Except Unit Unit)
  remoteUser : String
  remoteNode : String
  remoteBaseCmd : List String
  remoteOracle : Nat → SubprocResult
  startResult : Except Unit String
  sshDuringStartup : Bool
  internalSsl : Bool
  svcName : String
  runForwardResult : Except Unit (String × Nat)

structure StartOut where
  trace : List StartEff
  result : Except StartErr String

/-- `call_subclass_start`: allocates the port when unset; when
`ssh_create_remote_forward` resolves true runs the remote forward (the
custom hook or the default) and aborts with `HTTPError(419)` on any
failure, before `self._start()` is ever scheduled; then awaits `_start`
(failure appends a terminal stop event and re-raises) and resolves the
three connectivity cases. -/
def callSubclassStart (cfg : StartCfg) : StartOut :=
  let port0 := if cfg.port = 0 then cfg.randomPort else cfg.port
  let remote : List StartEff × Option PyErr :=
    if cfg.createRemoteForward then
      match cfg.customRemote with
      | some (.ok _) => ([.customRemoteForward], none)
      | some (.error _) => ([.customRemoteForward], some .exception)
      | none =>
        sshDefaultForwardRemote cfg.remoteUser cfg.remoteNode
          cfg.remoteBaseCmd cfg.remoteOracle
    else ([], none)
  match remote.2 with
  | some _ => ⟨remote.1, .error .tunnelError419⟩
  | none =>
    match cfg.startResult with
    | .error _ => ⟨remote.1 ++ [.callStart, .appendFailEvent], .error .startFailed⟩
    | .ok resp =>
      let proto := if cfg.internalSsl then "https://" else "http://"
      if cfg.sshDuringStartup then
        match cfg.runForwardResult with
        | .error _ =>
          ⟨remote.1 ++ [.callStart, .runSshForward], .error .startFailed⟩
        | .ok (svcName, p) =>
          ⟨remote.1 ++ [.callStart, .runSshForward],
            .ok (proto ++ svcName ++ ":" ++ toString p)⟩
      else
        if resp = "" then
          ⟨remote.1 ++ [.callStart],
            .ok (proto ++ cfg.svcName ++ ":" ++ toString port0)⟩
        else
          match splitServiceAddress resp with
          | .error e => ⟨remote.1 ++ [.callStart], .error (.splitError e)⟩
          | .ok (addr, p) =>
            ⟨remote.1 ++ [.callStart], .ok (proto ++ addr ++ ":" ++ p)⟩

theorem sshDefaultForwardRemote_never_ok (user node : String)
    (baseCmd : List String) (oracle : Nat → SubprocResult) :
    ∃ e, (sshDefaultForwardRemote user node baseCmd oracle).2 = some e := by
  unfold sshDefaultForwardRemote
  cases h : (connPhase user node baseCmd oracle).err with
  | none => exact ⟨.nameError, by simp [h]⟩
  | some e => exact ⟨e, by simp [h]⟩

theorem callStart_not_in_remote_map (l : List TraceEntry) :
    StartEff.callStart ∉ l.map StartEff.remoteSubproc := by
  intro h
  obtain ⟨en, _, habs⟩ := List.mem_map.mp h
  exact StartEff.noConfusion habs

/-- C5: when the remote→local forward is required, a failing forward
establishment (the custom hook raising, or the default remote forward —
which on this code can never succeed) aborts the start with the 419
tunnel error and `_start` is never called; when it succeeds (custom
hook), the forward effect strictly precedes the `_start` call. -/
theorem c5_remote_forward_before_start (cfg : StartCfg) :
    (cfg.createRemoteForward = true →
      (cfg.customRemote = some (.error ()) ∨ cfg.customRemote = none) →
      (callSubclassStart cfg).result = .error .tunnelError419 ∧
        StartEff.callStart ∉ (callSubclassStart cfg).trace) ∧
    (cfg.createRemoteForward = true → cfg.customRemote = some (.ok ()) →
      ∃ rest, (callSubclassStart cfg).trace =
        [.customRemoteForward, .callStart] ++ rest) := by
  constructor
  · intro hcr hfail
    rcases hfail with hf | hf
    · constructor <;> simp [callSubclassStart, hcr, hf]
    · obtain ⟨e, he⟩ := sshDefaultForwardRemote_never_ok cfg.remoteUser
        cfg.remoteNode cfg.remoteBaseCmd cfg.remoteOracle
      constructor
      · simp [callSubclassStart, hcr, hf, he]
      · simp only [callSubclassStart, hcr, hf, he, if_true, ite_true]
        simp [sshDefaultForwardRemote]
        cases h : (connPhase cfg.remoteUser cfg.remoteNode cfg.remoteBaseCmd
            cfg.remoteOracle).err <;>
          simp [h, callStart_not_in_remote_map]
  · intro hcr hok
    cases hs : cfg.startResult with
    | error u => exact ⟨[.appendFailEvent], by simp [callSubclassStart, hcr, hok, hs]⟩
    | ok resp =>
      by_cases hd : cfg.sshDuringStartup
      · cases hr : cfg.runForwardResult with
        | error u =>
          exact ⟨[.runSshForward], by simp [callSubclassStart, hcr, hok, hs, hd, hr]⟩
        | ok sp =>
          exact ⟨[.runSshForward],
            by obtain ⟨sn, p⟩ := sp; simp [callSubclassStart, hcr, hok, hs, hd, hr]⟩
      · by_cases hresp : resp = ""
        · exact ⟨[], by simp [callSubclassStart, hcr, hok, hs, hd, hresp]⟩
        · cases hsp : splitServiceAddress resp with
          | error e =>
            exact ⟨[], by simp [callSubclassStart, hcr, hok, hs, hd, hresp, hsp]⟩
          | ok ap =>
            exact ⟨[],
              by obtain ⟨a, p⟩ := ap; simp [callSubclassStart, hcr, hok, hs, hd, hresp, hsp]⟩

def cfgC5 : StartCfg :=
  { port := 0, randomPort := 34567, createRemoteForward := true,
    customRemote := some (.error ()), remoteUser := "u", remoteNode := "n",
    remoteBaseCmd := ["ssh"], remoteOracle := fun _ => .ret 0 "" "",
    startResult := .ok "http://svc:8080", sshDuringStartup := false,
    internalSsl := false, svcName := "jupyter-user",
    runForwardResult := .ok ("jupyter-user", 34567) }

theorem c5_remote_forward_before_start_witness :
    (callSubclassStart cfgC5).result = .error .tunnelError419 ∧
      StartEff.callStart ∉ (callSubclassStart cfgC5).trace :=
  (c5_remote_forward_before_start cfgC5).1 rfl (.inl rfl)

end FwdSpawner

namespace FwdSpawner

/-! ## `SetupTunnelAPIHandler.post` (api_setup_tunnel.py:13-97) -/

theorem getState_pfi (now : Int) (p : PruneState) (so : StateOut)
    (h : getState now p = .ok so) :
    so.portForwardInfo = p.portForwardInfo := by
  unfold getState at h
  split at h
  · injection h with h2
    rw [← h2]
  · split at h
    · simp at h
    · injection h with h2
      rw [← h2]

structure STState where
  stopPending : Bool
  prune : PruneState

inductive STEff where
  | updateInfo (merged : List (String × String))
  | saveState (st : StateOut)
  | commit
  | runForward
  | stopSpawner
  deriving DecidableEq, Repr

structure STOut where
  status : Nat
  trace : List STEff
  state : STState

/-- The handler after the 404 checks: `body` is the JSON payload
(`error` unparseable ⇒ 400); a pending stop rejects with 400 before any
mutation; an empty payload rejects with 400; otherwise the payload is
merged into `port_forward_info`, the state is saved
(`orm_spawner.state = get_state()`) and committed, and only then
`run_ssh_forward` runs; any exception in that block (a raising
`get_state`, or a failing tunnel setup, `runForwardOk = false`) calls
`spawner.stop(cancel=True, event=failed_event)` and responds 400. -/
def postSetupTunnel (body : Except Unit (List (String × String))) (now : Int)
    (runForwardOk : Bool) (st : STState) : STOut :=
  match body with
  | .error _ => ⟨400, [], st⟩
  | .ok jb =>
    if st.stopPending then
      ⟨400, [], st⟩
    else if jb = [] then
      ⟨400, [], st⟩
    else
      let merged := dictUpdate st.prune.portForwardInfo jb
      let st1 : STState :=
        { st with prune := { st.prune with portForwardInfo := merged } }
      match getState now st1.prune with
      | .error _ => ⟨400, [.updateInfo merged, .stopSpawner], st1⟩
      | .ok so =>
        if runForwardOk then
          ⟨204, [.updateInfo merged, .saveState so, .commit, .runForward], st1⟩
        else
          ⟨400, [.updateInfo merged, .saveState so, .commit, .runForward,
            .stopSpawner], st1⟩

/-- C8: a pending stop rejects the callback with 400 and leaves
`port_forward_info` untouched; otherwise, with a non-empty payload, the
merge, the state save (whose saved `port_forward_info` is the merged
dict) and the commit all happen strictly before any tunnel-setup action:
whenever `run_ssh_forward` appears in the trace it is preceded exactly
by them. -/
theorem c8_setup_tunnel_order (body : Except Unit (List (String × String)))
    (now : Int) (runForwardOk : Bool) (st : STState) (jb : List (String × String)) :
    (st.stopPending = true →
      postSetupTunnel body now runForwardOk st = ⟨400, [], st⟩) ∧
    (body = .ok jb → jb ≠ [] → st.stopPending = false →
      STEff.runForward ∈ (postSetupTunnel body now runForwardOk st).trace →
      ∃ so, (postSetupTunnel body now runForwardOk st).trace.take 4 =
          [.updateInfo (dictUpdate st.prune.portForwardInfo jb),
           .saveState so, .commit, .runForward] ∧
        so.portForwardInfo = dictUpdate st.prune.portForwardInfo jb) := by
  constructor
  · intro hsp
    cases body with
    | error u => rfl
    | ok jb2 => simp [postSetupTunnel, hsp]
  · intro hb hne hsp hmem
    subst hb
    cases hg : getState now { st.prune with
        portForwardInfo := dictUpdate st.prune.portForwardInfo jb } with
    | error e =>
      exact absurd hmem (by simp [postSetupTunnel, hsp, hne, hg])
    | ok so =>
      refine ⟨so, ?_, getState_pfi now _ so hg⟩
      cases runForwardOk <;> simp [postSetupTunnel, hsp, hne, hg]

def stC8 : STState :=
  { stopPending := false,
    prune := { portForwardInfo := [("ssh_node", "outpost.example")],
               port := 0, events := [], latestEvents := [] } }

theorem c8_setup_tunnel_order_witness :
    ∃ so, (postSetupTunnel (.ok [("service", "http://svc:8080")]) nowC true
        stC8).trace.take 4 =
        [.updateInfo (dictUpdate stC8.prune.portForwardInfo
            [("service", "http://svc:8080")]),
         .saveState so, .commit, .runForward] ∧
      so.portForwardInfo = dictUpdate stC8.prune.portForwardInfo
          [("service", "http://svc:8080")] :=
  (c8_setup_tunnel_order (.ok [("service", "http://svc:8080")]) nowC true stC8
      [("service", "http://svc:8080")]).2 rfl (by decide) rfl (by decide)

end FwdSpawner

namespace FwdSpawner

/-! ## C10: class-level mutable default containers (forward.py:59-77)

`port_forward_info = {}`, `latest_events = []` and `events = {}` are
class-body assignments, so each names a single object held by the class;
`__init__` (forward.py:1246-1253) binds none of them on the instance.
Python attribute lookup falls back to the class attribute when the
instance has no own binding, and in-place mutations (`append`, `update`,
item assignment) act on the resolved object.  The heap below makes
object identity explicit. -/

structure PyHeap where
  listCells : Nat → List Evt
  dictCells : Nat → List (String × String)
  eventsCells : Nat → List (String × List PyDict)

/-- The class object with its three container attributes. -/
structure SpawnerCls where
  latestEventsRef : Nat
  eventsRef : Nat
  portForwardInfoRef : Nat

/-- An instance: `none` means no own binding for the attribute (the
state after `__init__`); `load_state` / `clear_state` rebind to fresh
objects (`some ref`). -/
structure SpawnerInst where
  latestEventsRef : Option Nat
  eventsRef : Option Nat
  portForwardInfoRef : Option Nat

/-- A freshly constructed spawner: `__init__` binds only `_start_future`,
`_start_future_response`, `svc_name` and `dns_name` — none of the three
containers. -/
def newSpawnerInst : SpawnerInst := ⟨none, none, none⟩

def resolveLatest (cls : SpawnerCls) (i : SpawnerInst) : Nat :=
  i.latestEventsRef.getD cls.latestEventsRef

def resolveEvents (cls : SpawnerCls) (i : SpawnerInst) : Nat :=
  i.eventsRef.getD cls.eventsRef

def resolvePfi (cls : SpawnerCls) (i : SpawnerInst) : Nat :=
  i.portForwardInfoRef.getD cls.portForwardInfoRef

/-- `spawner.latest_events.append(event)` (api_events.py:150-151). -/
def appendLatest (cls : SpawnerCls) (i : SpawnerInst) (h : PyHeap) (e : Evt) :
    PyHeap :=
  { h with listCells := fun r =>
      if r = resolveLatest cls i then h.listCells r ++ [e] else h.listCells r }

def readLatest (cls : SpawnerCls) (i : SpawnerInst) (h : PyHeap) : List Evt :=
  h.listCells (resolveLatest cls i)

/-- `spawner.port_forward_info.update(json_body)` (api_setup_tunnel.py:63). -/
def updatePfi (cls : SpawnerCls) (i : SpawnerInst) (h : PyHeap)
    (upd : List (String × String)) : PyHeap :=
  { h with dictCells := fun r =>
      if r = resolvePfi cls i then dictUpdate (h.dictCells r) upd
      else h.dictCells r }

def readPfi (cls : SpawnerCls) (i : SpawnerInst) (h : PyHeap) :
    List (String × String) :=
  h.dictCells (resolvePfi cls i)

/-- `self.events[key] = value` (as in `get_state`, forward.py:586). -/
def setEventsKey (cls : SpawnerCls) (i : SpawnerInst) (h : PyHeap)
    (k : String) (v : List PyDict) : PyHeap :=
  { h with eventsCells := fun r =>
      if r = resolveEvents cls i then assocSet (h.eventsCells r) k v
      else h.eventsCells r }

def readEvents (cls : SpawnerCls) (i : SpawnerInst) (h : PyHeap) :
    List (String × List PyDict) :=
  h.eventsCells (resolveEvents cls i)

/-- C10: two spawner instances that have not rebound the container
attributes resolve them to the same class-level objects, so an in-place
mutation performed through one instance is observable through the
other — for `latest_events.append`, `port_forward_info.update` and
`events` item assignment alike. -/
theorem c10_shared_class_defaults (cls : SpawnerCls) (i1 i2 : SpawnerInst)
    (h : PyHeap) (e : Evt) (upd : List (String × String)) (k : String)
    (v : List PyDict)
    (hl1 : i1.latestEventsRef = none) (hl2 : i2.latestEventsRef = none)
    (hp1 : i1.portForwardInfoRef = none) (hp2 : i2.portForwardInfoRef = none)
    (he1 : i1.eventsRef = none) (he2 : i2.eventsRef = none) :
    readLatest cls i2 (appendLatest cls i1 h e) = readLatest cls i2 h ++ [e] ∧
    readPfi cls i2 (updatePfi cls i1 h upd) =
      dictUpdate (readPfi cls i2 h) upd ∧
    readEvents cls i2 (setEventsKey cls i1 h k v) =
      assocSet (readEvents cls i2 h) k v := by
  refine ⟨?_, ?_, ?_⟩
  · simp [readLatest, appendLatest, resolveLatest, hl1, hl2]
  · simp [readPfi, updatePfi, resolvePfi, hp1, hp2]
  · simp [readEvents, setEventsKey, resolveEvents, he1, he2]

def clsW : SpawnerCls := ⟨0, 1, 2⟩

def heapW : PyHeap := ⟨fun _ => [], fun _ => [], fun _ => []⟩

theorem c10_shared_class_defaults_witness :
    readLatest clsW newSpawnerInst
        (appendLatest clsW newSpawnerInst heapW evC4) =
      readLatest clsW newSpawnerInst heapW ++ [evC4] ∧
    readPfi clsW newSpawnerInst
        (updatePfi clsW newSpawnerInst heapW [("service", "http://svc:8080")]) =
      dictUpdate (readPfi clsW newSpawnerInst heapW)
        [("service", "http://svc:8080")] ∧
    readEvents clsW newSpawnerInst
        (setEventsKey clsW newSpawnerInst heapW "latest" [some evC4]) =
      assocSet (readEvents clsW newSpawnerInst heapW) "latest" [some evC4] :=
  c10_shared_class_defaults clsW newSpawnerInst newSpawnerInst heapW evC4
    [("service", "http://svc:8080")] "latest" [some evC4]
    rfl rfl rfl rfl rfl rfl

end FwdSpawner
